import Mathlib

/-!
# Verification of the GeoRanker specification against `src/06-navigator-geolocation.js`

Shallow embedding, over the real numbers, of the geographic distance-ranking
utility of the repository: `calculateDistance` (Haversine), `findNearestStore`
(nearest candidate by distance) and `findNearbyRestaurants` (radius filter
ordered by rating).  JavaScript numbers are modelled as real numbers, and the
stable `Array.prototype.sort` (stability is mandated since ES2019) is modelled
by a stable insertion sort on lists.  The source hardcodes its candidate lists
inside the functions; here the candidate list is lifted to a parameter so that
the specification's quantification over candidate sequences is statable, and
the hardcoded lists are kept as the definitions `stores` and `restaurants`.
-/

namespace GeoRanker

noncomputable section

/-- JavaScript's `Math.atan2 y x`, modelled over the reals by quadrant cases
on `Real.arctan` (signed zeros of IEEE 754 are not distinguished). -/
def atan2 (y x : ℝ) : ℝ :=
  if 0 < x then Real.arctan (y / x)
  else if x < 0 then
    (if 0 ≤ y then Real.arctan (y / x) + Real.pi else Real.arctan (y / x) - Real.pi)
  else
    (if 0 < y then Real.pi / 2 else if y < 0 then -(Real.pi / 2) else 0)

/-- `calculateDistance(lat1, lon1, lat2, lon2)` from
`src/06-navigator-geolocation.js` lines 221-236: Haversine formula with
Earth radius 6371 km. -/
def calculateDistance (lat1 lon1 lat2 lon2 : ℝ) : ℝ :=
  let R : ℝ := 6371
  let dLat : ℝ := (lat2 - lat1) * Real.pi / 180
  let dLon : ℝ := (lon2 - lon1) * Real.pi / 180
  let a : ℝ :=
    Real.sin (dLat / 2) * Real.sin (dLat / 2) +
      Real.cos (lat1 * Real.pi / 180) * Real.cos (lat2 * Real.pi / 180) *
        Real.sin (dLon / 2) * Real.sin (dLon / 2)
  let c : ℝ := 2 * atan2 (Real.sqrt a) (Real.sqrt (1 - a))
  R * c

/-- A location, as in the specification's data model (§3). -/
structure GeoPoint where
  lat : ℝ
  lon : ℝ

/-- Degrees to radians, as written in the specification's formula (§4.1). -/
def radians (x : ℝ) : ℝ := x * Real.pi / 180

/-- The Haversine distance exactly as the specification §4.1 writes it:
`h = sin²(dLat/2) + cos(radians(a.lat))·cos(radians(b.lat))·sin²(dLon/2)`,
`distance = 2 · 6371 · atan2(√h, √(1-h))`.  Used only to compare the
specification's formula with the source's `calculateDistance`. -/
def haversineSpec (a b : GeoPoint) : ℝ :=
  let dLat : ℝ := radians (b.lat - a.lat)
  let dLon : ℝ := radians (b.lon - a.lon)
  let h : ℝ :=
    Real.sin (dLat / 2) ^ 2 +
      Real.cos (radians a.lat) * Real.cos (radians b.lat) * Real.sin (dLon / 2) ^ 2
  2 * 6371 * atan2 (Real.sqrt h) (Real.sqrt (1 - h))

/-- A store record from `findNearestStore` (name, lat, lon). -/
structure Store where
  name : String
  lat : ℝ
  lon : ℝ

/-- A store together with its computed distance, as built by the
`stores.map(store => ({...store, distance: ...}))` step. -/
structure RankedStore where
  name : String
  lat : ℝ
  lon : ℝ
  distance : ℝ

/-- The spread-plus-distance step of `findNearestStore`. -/
def addStoreDistance (userLat userLon : ℝ) (store : Store) : RankedStore :=
  { name := store.name, lat := store.lat, lon := store.lon,
    distance := calculateDistance userLat userLon store.lat store.lon }

/-- Stable insertion of one element: `a` is placed before the first element
`b` with `le a b`; elements comparing equal keep their relative order, which
is exactly the guarantee of the (stable) JavaScript `Array.prototype.sort`. -/
def insertLe {α : Type} (le : α → α → Bool) (a : α) : List α → List α
  | [] => [a]
  | b :: l => if le a b then a :: b :: l else b :: insertLe le a l

/-- Stable insertion sort, modelling the stable JavaScript sort. -/
def sortLe {α : Type} (le : α → α → Bool) : List α → List α
  | [] => []
  | a :: l => insertLe le a (sortLe le l)

/-- The comparator `(a, b) => a.distance - b.distance` of `findNearestStore`:
`a` may stay before `b` exactly when the comparator is `<= 0`. -/
def distLe (a b : RankedStore) : Bool := decide (a.distance ≤ b.distance)

/-- The hardcoded store list of `findNearestStore` (lines 250-254). -/
def stores : List Store :=
  [⟨"Store A", 19.0760, 72.8777⟩, ⟨"Store B", 19.1136, 72.8697⟩,
   ⟨"Store C", 18.9388, 72.8354⟩]

/-- `findNearestStore(userLat, userLon)` from lines 249-267: annotate every
store with its distance, sort ascending by distance with the stable sort, take
element `[0]`.  Indexing an empty array yields `undefined` in JavaScript,
modelled by `Option.none` via `head?`.  The source hardcodes `stores`; the
list is lifted to a parameter so the behaviour is statable for every
candidate sequence. -/
def findNearestStore (userLat userLon : ℝ) (stores : List Store) : Option RankedStore :=
  (sortLe distLe (stores.map (addStoreDistance userLat userLon))).head?

/-- A restaurant record from `findNearbyRestaurants`; `rating` is optional in
the specification's data model, a missing rating modelling a record without a
`rating` property (`undefined`). -/
structure Restaurant where
  name : String
  lat : ℝ
  lon : ℝ
  rating : Option ℝ

/-- A restaurant together with its computed distance. -/
structure RankedRestaurant where
  name : String
  lat : ℝ
  lon : ℝ
  rating : Option ℝ
  distance : ℝ

/-- The spread-plus-distance step of `findNearbyRestaurants`. -/
def addRestaurantDistance (userLat userLon : ℝ) (r : Restaurant) : RankedRestaurant :=
  { name := r.name, lat := r.lat, lon := r.lon, rating := r.rating,
    distance := calculateDistance userLat userLon r.lat r.lon }

/-- The comparator `(a, b) => b.rating - a.rating` of `findNearbyRestaurants`:
`a` may stay before `b` exactly when the comparator is `<= 0`, i.e.
`b.rating ≤ a.rating`.  When either rating is absent the subtraction yields
`NaN`, which ECMAScript's `SortCompare` turns into `+0`, i.e. "equal". -/
def ratingLe (a b : RankedRestaurant) : Bool :=
  match b.rating, a.rating with
  | some rb, some ra => decide (rb ≤ ra)
  | _, _ => true

/-- The filter predicate `r => r.distance <= radius`. -/
def withinRadius (radius : ℝ) (r : RankedRestaurant) : Bool :=
  decide (r.distance ≤ radius)

/-- The hardcoded restaurant list of `findNearbyRestaurants` (lines 377-381). -/
def restaurants : List Restaurant :=
  [⟨"Restaurant A", 19.0760, 72.8777, some 4.5⟩,
   ⟨"Restaurant B", 19.1136, 72.8697, some 4.2⟩,
   ⟨"Restaurant C", 18.9388, 72.8354, some 4.8⟩]

/-- `findNearbyRestaurants(userLat, userLon, radius = 5)` from lines 373-397:
annotate every restaurant with its distance, keep those with
`distance <= radius`, sort by rating descending with the stable sort.  The
source hardcodes `restaurants`; the list is lifted to a parameter so the
behaviour is statable for every candidate sequence.  The `radius` parameter
keeps the source's default value `5`. -/
def findNearbyRestaurants (userLat userLon : ℝ) (restaurants : List Restaurant)
    (radius : ℝ := 5) : List RankedRestaurant :=
  sortLe ratingLe
    ((restaurants.map (addRestaurantDistance userLat userLon)).filter (withinRadius radius))

end

/-! ## Helper lemmas about `atan2` and `calculateDistance` -/

theorem arctan_nonneg_of_nonneg {z : ℝ} (hz : 0 ≤ z) : 0 ≤ Real.arctan z := by
  have h := Real.arctan_strictMono.monotone hz
  rwa [Real.arctan_zero] at h

theorem atan2_nonneg {y x : ℝ} (hy : 0 ≤ y) : 0 ≤ atan2 y x := by
  have hp := Real.pi_pos
  unfold atan2
  split_ifs with h1 h2 h3 h4
  · exact arctan_nonneg_of_nonneg (div_nonneg hy h1.le)
  all_goals try (have ha := Real.neg_pi_div_two_lt_arctan (y / x))
  all_goals linarith

theorem calculateDistance_nonneg (lat1 lon1 lat2 lon2 : ℝ) :
    0 ≤ calculateDistance lat1 lon1 lat2 lon2 := by
  simp only [calculateDistance]
  exact mul_nonneg (by norm_num)
    (mul_nonneg (by norm_num) (atan2_nonneg (Real.sqrt_nonneg _)))

theorem calculateDistance_self_aux (lat lon : ℝ) : calculateDistance lat lon lat lon = 0 := by
  simp only [calculateDistance]
  norm_num [Real.sin_zero, Real.sqrt_zero, Real.sqrt_one, atan2, Real.arctan_zero]

/-! ## Helper lemmas about the stable insertion sort -/

theorem insertLe_perm {α : Type} (le : α → α → Bool) (a : α) :
    ∀ l : List α, (insertLe le a l).Perm (a :: l)
  | [] => List.Perm.refl _
  | b :: l => by
    simp only [insertLe]
    split
    · exact List.Perm.refl _
    · exact ((insertLe_perm le a l).cons b).trans (List.Perm.swap a b l)

theorem sortLe_perm {α : Type} (le : α → α → Bool) :
    ∀ l : List α, (sortLe le l).Perm l
  | [] => List.Perm.refl _
  | a :: l => (insertLe_perm le a (sortLe le l)).trans ((sortLe_perm le l).cons a)

theorem mem_sortLe {α : Type} (le : α → α → Bool) (l : List α) (x : α) :
    x ∈ sortLe le l ↔ x ∈ l :=
  (sortLe_perm le l).mem_iff

theorem mem_insertLe {α : Type} (le : α → α → Bool) (a x : α) (l : List α) :
    x ∈ insertLe le a l ↔ x = a ∨ x ∈ l := by
  rw [(insertLe_perm le a l).mem_iff, List.mem_cons]

/-- The head of the stable sort by a real-valued key is the earliest element
of the input attaining the minimal key: it is minimal, and every element
strictly before it in the input has a strictly larger key. -/
theorem head_sortLe_key {α : Type} (k : α → ℝ) :
    ∀ l : List α, l ≠ [] →
      ∃ x pre suf, (sortLe (fun a b => decide (k a ≤ k b)) l).head? = some x ∧
        l = pre ++ x :: suf ∧ (∀ y ∈ l, k x ≤ k y) ∧ ∀ y ∈ pre, k x < k y
  | [], h => absurd rfl h
  | [a], _ => ⟨a, [], [], by simp [sortLe, insertLe], rfl, by simp, by simp⟩
  | a :: b :: l, _ => by
    obtain ⟨x, pre, suf, hhead, hdecomp, hmin, hpre⟩ :=
      head_sortLe_key k (b :: l) (by simp)
    cases hs : sortLe (fun a b => decide (k a ≤ k b)) (b :: l) with
    | nil => rw [hs] at hhead; simp at hhead
    | cons x0 t =>
      rw [hs] at hhead
      simp only [List.head?_cons, Option.some.injEq] at hhead
      subst hhead
      by_cases hc : k a ≤ k x0
      · refine ⟨a, [], b :: l, ?_, rfl, ?_, by simp⟩
        · rw [sortLe, hs]
          simp [insertLe, hc]
        · intro y hy
          rcases List.mem_cons.mp hy with rfl | hy2
          · exact le_refl _
          · exact le_trans hc (hmin y hy2)
      · push_neg at hc
        refine ⟨x0, a :: pre, suf, ?_, ?_, ?_, ?_⟩
        · rw [sortLe, hs]
          simp [insertLe, not_le.mpr hc]
        · rw [List.cons_append, ← hdecomp]
        · intro y hy
          rcases List.mem_cons.mp hy with rfl | hy2
          · exact hc.le
          · exact hmin y hy2
        · intro y hy
          rcases List.mem_cons.mp hy with rfl | hy2
          · exact hc
          · exact hpre y hy2

theorem filter_insertLe_neg {α : Type} (p : α → Bool) (le : α → α → Bool) (a : α)
    (ha : p a = false) : ∀ l : List α, (insertLe le a l).filter p = l.filter p
  | [] => by simp [insertLe, ha]
  | b :: l => by
    simp only [insertLe]
    split
    · simp [List.filter_cons, ha]
    · simp only [List.filter_cons]
      rw [filter_insertLe_neg p le a ha l]

theorem filter_insertLe_pos {α : Type} (p : α → Bool) (le : α → α → Bool) (a : α)
    (ha : p a = true) (h : ∀ b, p b = true → le a b = true) :
    ∀ l : List α, (insertLe le a l).filter p = a :: l.filter p
  | [] => by simp [insertLe, ha]
  | b :: l => by
    simp only [insertLe]
    split
    · simp [List.filter_cons, ha]
    · next hle =>
      have hpb : p b = false := by
        cases hpb : p b
        · rfl
        · exact absurd (h b hpb) hle
      simp only [List.filter_cons, hpb]
      rw [filter_insertLe_pos p le a ha h l]
      simp

/-- Stability of the insertion sort: filtering by a predicate whose holders
are pairwise `le`-related commutes with sorting, i.e. elements comparing
equal keep their relative input order. -/
theorem filter_sortLe {α : Type} (p : α → Bool) (le : α → α → Bool)
    (h : ∀ a b, p a = true → p b = true → le a b = true) :
    ∀ l : List α, (sortLe le l).filter p = l.filter p
  | [] => rfl
  | a :: l => by
    cases hpa : p a
    · simp only [sortLe]
      rw [filter_insertLe_neg p le a hpa, filter_sortLe p le h l]
      simp [List.filter_cons, hpa]
    · simp only [sortLe]
      rw [filter_insertLe_pos p le a hpa (fun b hb => h a b hpa hb), filter_sortLe p le h l]
      simp [List.filter_cons, hpa]

theorem pairwise_insertLe {α : Type} (le : α → α → Bool) (a : α) :
    ∀ l : List α, l.Pairwise (fun x y => le x y = true) →
      (∀ b ∈ l, le a b = false → le b a = true) →
      (∀ b ∈ l, ∀ c ∈ l, le a b = true → le b c = true → le a c = true) →
      (insertLe le a l).Pairwise (fun x y => le x y = true)
  | [], _, _, _ => by simp [insertLe]
  | b :: l, hl, htotal, htrans => by
    rw [List.pairwise_cons] at hl
    obtain ⟨hbl, hl2⟩ := hl
    simp only [insertLe]
    split
    · next hle =>
      refine List.pairwise_cons.mpr ⟨?_, List.pairwise_cons.mpr ⟨hbl, hl2⟩⟩
      intro y hy
      rcases List.mem_cons.mp hy with rfl | hy2
      · exact hle
      · exact htrans b (List.mem_cons_self b l) y (List.mem_cons_of_mem b hy2) hle (hbl y hy2)
    · next hle =>
      have hba : le b a = true := htotal b (List.mem_cons_self b l) (by simpa using hle)
      refine List.pairwise_cons.mpr ⟨?_, ?_⟩
      · intro y hy
        rcases (mem_insertLe le a y l).mp hy with rfl | hy2
        · exact hba
        · exact hbl y hy2
      · exact pairwise_insertLe le a l hl2
          (fun c hc hf => htotal c (List.mem_cons_of_mem b hc) hf)
          (fun c hc d hd h1 h2 =>
            htrans c (List.mem_cons_of_mem b hc) d (List.mem_cons_of_mem b hd) h1 h2)

theorem pairwise_sortLe {α : Type} (le : α → α → Bool) :
    ∀ l : List α,
      (∀ a ∈ l, ∀ b ∈ l, le a b = false → le b a = true) →
      (∀ a ∈ l, ∀ b ∈ l, ∀ c ∈ l, le a b = true → le b c = true → le a c = true) →
      (sortLe le l).Pairwise (fun x y => le x y = true)
  | [], _, _ => by simp [sortLe]
  | a :: l, htotal, htrans => by
    simp only [sortLe]
    apply pairwise_insertLe le a (sortLe le l)
    · exact pairwise_sortLe le l
        (fun x hx y hy => htotal x (List.mem_cons_of_mem a hx) y (List.mem_cons_of_mem a hy))
        (fun x hx y hy z hz => htrans x (List.mem_cons_of_mem a hx) y
          (List.mem_cons_of_mem a hy) z (List.mem_cons_of_mem a hz))
    · intro b hb
      have hb2 : b ∈ l := (mem_sortLe le l b).mp hb
      exact htotal a (List.mem_cons_self a l) b (List.mem_cons_of_mem a hb2)
    · intro b hb c hc
      have hb2 := (mem_sortLe le l b).mp hb
      have hc2 := (mem_sortLe le l c).mp hc
      exact htrans a (List.mem_cons_self a l) b (List.mem_cons_of_mem a hb2) c
        (List.mem_cons_of_mem a hc2)

/-! ## Claims about the distance function -/

/-- C1: For every pair of points `a` and `b`, `distance(a, b)` equals the
Haversine great-circle distance with Earth radius fixed at 6371 km: with
`dLat` and `dLon` the latitude and longitude differences converted to radians,
`h = sin²(dLat/2) + cos(radians(a.lat))·cos(radians(b.lat))·sin²(dLon/2)`,
the result is `2·6371·atan2(√h, √(1-h))` kilometers.  The source's
`calculateDistance` coincides with the specification's formula exactly. -/
theorem calculateDistance_eq_haversineSpec (a b : GeoPoint) :
    calculateDistance a.lat a.lon b.lat b.lon = haversineSpec a b := by
  simp only [calculateDistance, haversineSpec, radians]
  ring_nf

/-- C8: For every pair of points `A` and `B`, `distance(A, B)` equals
`distance(B, A)` — exact equality over real arithmetic. -/
theorem calculateDistance_symm (lat1 lon1 lat2 lon2 : ℝ) :
    calculateDistance lat1 lon1 lat2 lon2 = calculateDistance lat2 lon2 lat1 lon1 := by
  have hsin : ∀ p q : ℝ,
      Real.sin ((p - q) * Real.pi / 180 / 2) = -Real.sin ((q - p) * Real.pi / 180 / 2) := by
    intro p q
    have h1 : (p - q) * Real.pi / 180 / 2 = -((q - p) * Real.pi / 180 / 2) := by ring
    rw [h1, Real.sin_neg]
  simp only [calculateDistance]
  rw [hsin lat1 lat2, hsin lon1 lon2]
  ring_nf

/-- C9: For every point `A`, `distance(A, A)` — the distance from a point to
itself, between two points with identical coordinates — is exactly 0. -/
theorem calculateDistance_self (lat lon : ℝ) :
    calculateDistance lat lon lat lon = 0 :=
  calculateDistance_self_aux lat lon

/-! ## Claims about `findNearestStore` -/

/-- C2: For every origin point and every non-empty sequence of candidates,
`nearest` returns the candidate whose distance to the origin is minimal, and
when two or more candidates share the identical minimal distance, the
candidate appearing earliest in the input sequence is the one returned: the
returned record sits at some position of the distance-annotated input, its
distance is a minimum, and every candidate strictly before it in the input
has strictly greater distance. -/
theorem findNearestStore_min_earliest (userLat userLon : ℝ) (stores : List Store)
    (h : stores ≠ []) :
    ∃ x pre suf, findNearestStore userLat userLon stores = some x ∧
      stores.map (addStoreDistance userLat userLon) = pre ++ x :: suf ∧
      (∀ y ∈ stores.map (addStoreDistance userLat userLon), x.distance ≤ y.distance) ∧
      ∀ y ∈ pre, x.distance < y.distance := by
  have hmap : stores.map (addStoreDistance userLat userLon) ≠ [] := by
    simpa using h
  obtain ⟨x, pre, suf, hhead, hdecomp, hmin, hpre⟩ :=
    head_sortLe_key RankedStore.distance (stores.map (addStoreDistance userLat userLon)) hmap
  exact ⟨x, pre, suf, hhead, hdecomp, hmin, hpre⟩

/-- Witness for C2 at origin `(0, 0)` with one concrete candidate. -/
theorem findNearestStore_min_earliest_witness :
    ([⟨"Store A", 0, 0⟩] : List Store) ≠ [] ∧
      ∃ x pre suf, findNearestStore 0 0 [⟨"Store A", 0, 0⟩] = some x ∧
        ([⟨"Store A", 0, 0⟩] : List Store).map (addStoreDistance 0 0) = pre ++ x :: suf ∧
        (∀ y ∈ ([⟨"Store A", 0, 0⟩] : List Store).map (addStoreDistance 0 0),
          x.distance ≤ y.distance) ∧
        ∀ y ∈ pre, x.distance < y.distance :=
  ⟨by simp, findNearestStore_min_earliest 0 0 [⟨"Store A", 0, 0⟩] (by simp)⟩

/-- C3 (code divergence): on an empty candidate sequence the source's
`findNearestStore` takes element `[0]` of an empty sorted array, which is
`undefined` in JavaScript (modelled `none`), and then crashes reading
`nearest.name`; no `EmptyInputError` exists anywhere in the code.  This
theorem evaluates the embedding at the failing input. -/
theorem findNearestStore_empty_eval : findNearestStore 0 0 [] = none := rfl

/-! ## Claims about `findNearbyRestaurants` -/

/-- C4: For every origin, candidate sequence, and non-negative `radiusKm`,
the result of `within` contains exactly those candidates whose distance to
the origin is at most `radiusKm`: a candidate at distance exactly `radiusKm`
is included (the filter is `<=`, an inclusive boundary), and every candidate
strictly beyond `radiusKm` is excluded. -/
theorem findNearbyRestaurants_filter_spec (userLat userLon radius : ℝ)
    (rs : List Restaurant) (h0 : 0 ≤ radius) :
    (∀ r ∈ rs, (addRestaurantDistance userLat userLon r ∈
        findNearbyRestaurants userLat userLon rs radius ↔
      calculateDistance userLat userLon r.lat r.lon ≤ radius)) ∧
    ∀ x ∈ findNearbyRestaurants userLat userLon rs radius,
      x.distance ≤ radius ∧ ∃ r ∈ rs, x = addRestaurantDistance userLat userLon r := by
  have hmem : ∀ x, x ∈ findNearbyRestaurants userLat userLon rs radius ↔
      x ∈ rs.map (addRestaurantDistance userLat userLon) ∧ x.distance ≤ radius := by
    intro x
    simp only [findNearbyRestaurants, mem_sortLe, List.mem_filter, withinRadius,
      decide_eq_true_eq]
  constructor
  · intro r hr
    rw [hmem]
    constructor
    · rintro ⟨-, hd⟩
      simpa [addRestaurantDistance] using hd
    · intro hd
      exact ⟨List.mem_map_of_mem _ hr, by simpa [addRestaurantDistance] using hd⟩
  · intro x hx
    obtain ⟨hx1, hx2⟩ := (hmem x).mp hx
    obtain ⟨r, hr, rfl⟩ := List.mem_map.mp hx1
    exact ⟨hx2, r, hr, rfl⟩

/-- Witness for C4 at origin `(0, 0)`, radius `5`, one concrete candidate. -/
theorem findNearbyRestaurants_filter_spec_witness :
    (0 : ℝ) ≤ 5 ∧
      ((∀ r ∈ ([⟨"Restaurant A", 0, 0, some 4.5⟩] : List Restaurant),
        (addRestaurantDistance 0 0 r ∈
            findNearbyRestaurants 0 0 [⟨"Restaurant A", 0, 0, some 4.5⟩] 5 ↔
          calculateDistance 0 0 r.lat r.lon ≤ 5)) ∧
      ∀ x ∈ findNearbyRestaurants 0 0 [⟨"Restaurant A", 0, 0, some 4.5⟩] 5,
        x.distance ≤ 5 ∧ ∃ r ∈ ([⟨"Restaurant A", 0, 0, some 4.5⟩] : List Restaurant),
          x = addRestaurantDistance 0 0 r) :=
  ⟨by norm_num,
    findNearbyRestaurants_filter_spec 0 0 5 [⟨"Restaurant A", 0, 0, some 4.5⟩] (by norm_num)⟩

/-- C5: For every origin, candidate sequence in which every candidate carries
a rating, and non-negative `radiusKm`, the sequence returned by `within` is
sorted by rating in descending order, and any two retained candidates with
equal rating appear in the output in the same relative order they had in the
input (stable sort): filtering the output to any fixed rating value yields
exactly the corresponding filtration of the (order-preserving) radius-filtered
input.  Candidates without a rating are the subject of C7. -/
theorem findNearbyRestaurants_rating_sorted_stable (userLat userLon radius : ℝ)
    (rs : List Restaurant) (h0 : 0 ≤ radius) (hrated : ∀ r ∈ rs, r.rating ≠ none) :
    (findNearbyRestaurants userLat userLon rs radius).Pairwise
      (fun a b => ∀ x y, a.rating = some x → b.rating = some y → y ≤ x) ∧
    ∀ q : ℝ, (findNearbyRestaurants userLat userLon rs radius).filter
        (fun x => decide (x.rating = some q)) =
      ((rs.map (addRestaurantDistance userLat userLon)).filter (withinRadius radius)).filter
        (fun x => decide (x.rating = some q)) := by
  constructor
  · have hmem : ∀ x ∈ (rs.map (addRestaurantDistance userLat userLon)).filter
        (withinRadius radius), ∃ q : ℝ, x.rating = some q := by
      intro x hx
      obtain ⟨hx1, -⟩ := List.mem_filter.mp hx
      obtain ⟨r, hr, rfl⟩ := List.mem_map.mp hx1
      have hne := hrated r hr
      cases hrat : r.rating with
      | none => exact absurd hrat hne
      | some q => exact ⟨q, by simp [addRestaurantDistance, hrat]⟩
    have htotal : ∀ a ∈ (rs.map (addRestaurantDistance userLat userLon)).filter
          (withinRadius radius),
        ∀ b ∈ (rs.map (addRestaurantDistance userLat userLon)).filter (withinRadius radius),
        ratingLe a b = false → ratingLe b a = true := by
      intro a ha b hb hf
      obtain ⟨qa, hqa⟩ := hmem a ha
      obtain ⟨qb, hqb⟩ := hmem b hb
      simp only [ratingLe, hqa, hqb, decide_eq_false_iff_not] at hf
      simp only [ratingLe, hqa, hqb, decide_eq_true_eq]
      exact le_of_not_le hf
    have htrans : ∀ a ∈ (rs.map (addRestaurantDistance userLat userLon)).filter
          (withinRadius radius),
        ∀ b ∈ (rs.map (addRestaurantDistance userLat userLon)).filter (withinRadius radius),
        ∀ c ∈ (rs.map (addRestaurantDistance userLat userLon)).filter (withinRadius radius),
        ratingLe a b = true → ratingLe b c = true → ratingLe a c = true := by
      intro a ha b hb c hc h1 h2
      obtain ⟨qa, hqa⟩ := hmem a ha
      obtain ⟨qb, hqb⟩ := hmem b hb
      obtain ⟨qc, hqc⟩ := hmem c hc
      simp only [ratingLe, hqa, hqb, hqc, decide_eq_true_eq] at h1 h2 ⊢
      exact le_trans h2 h1
    have hp := pairwise_sortLe ratingLe
      ((rs.map (addRestaurantDistance userLat userLon)).filter (withinRadius radius))
      htotal htrans
    refine List.Pairwise.imp ?_ hp
    intro a b hab x y hx hy
    simpa [ratingLe, hx, hy] using hab
  · intro q
    have hmut : ∀ a b : RankedRestaurant, decide (a.rating = some q) = true →
        decide (b.rating = some q) = true → ratingLe a b = true := by
      intro a b ha hb
      rw [decide_eq_true_eq] at ha hb
      simp [ratingLe, ha, hb]
    exact filter_sortLe (fun x => decide (x.rating = some q)) ratingLe hmut
      ((rs.map (addRestaurantDistance userLat userLon)).filter (withinRadius radius))

/-- Witness for C5 at origin `(0, 0)`, radius `5`, two rated candidates. -/
theorem findNearbyRestaurants_rating_sorted_stable_witness :
    ((0 : ℝ) ≤ 5 ∧ (∀ r ∈ ([⟨"Restaurant A", 0, 0, some 4.5⟩,
        ⟨"Restaurant B", 0, 0, some 4.2⟩] : List Restaurant), r.rating ≠ none)) ∧
      ((findNearbyRestaurants 0 0 [⟨"Restaurant A", 0, 0, some 4.5⟩,
          ⟨"Restaurant B", 0, 0, some 4.2⟩] 5).Pairwise
        (fun a b => ∀ x y, a.rating = some x → b.rating = some y → y ≤ x) ∧
      ∀ q : ℝ, (findNearbyRestaurants 0 0 [⟨"Restaurant A", 0, 0, some 4.5⟩,
            ⟨"Restaurant B", 0, 0, some 4.2⟩] 5).filter
          (fun x => decide (x.rating = some q)) =
        ((([⟨"Restaurant A", 0, 0, some 4.5⟩,
            ⟨"Restaurant B", 0, 0, some 4.2⟩] : List Restaurant).map
              (addRestaurantDistance 0 0)).filter (withinRadius 5)).filter
          (fun x => decide (x.rating = some q))) :=
  ⟨⟨by norm_num, by simp⟩,
    findNearbyRestaurants_rating_sorted_stable 0 0 5
      [⟨"Restaurant A", 0, 0, some 4.5⟩, ⟨"Restaurant B", 0, 0, some 4.2⟩]
      (by norm_num) (by simp)⟩

/-- Shared helper: with a negative radius every candidate is filtered out,
because every Haversine distance is non-negative. -/
theorem nearby_neg_radius_aux (userLat userLon radius : ℝ) (rs : List Restaurant)
    (h : radius < 0) : findNearbyRestaurants userLat userLon rs radius = [] := by
  have hf : (rs.map (addRestaurantDistance userLat userLon)).filter
      (withinRadius radius) = [] := by
    rw [List.filter_eq_nil_iff]
    intro x hx
    obtain ⟨r, hr, rfl⟩ := List.mem_map.mp hx
    simp only [withinRadius, addRestaurantDistance, decide_eq_true_eq]
    have hnn := calculateDistance_nonneg userLat userLon r.lat r.lon
    intro hle
    linarith
  show sortLe ratingLe
    ((rs.map (addRestaurantDistance userLat userLon)).filter (withinRadius radius)) = []
  rw [hf]
  rfl

/-- C6 counterexample: calling `within` with the source's hardcoded
restaurant list and negative radius `-1` does not fail with an
`InvalidArgumentError` — there is no error path in the code at all — it
returns the empty result sequence. -/
theorem findNearbyRestaurants_neg_radius_cex :
    findNearbyRestaurants 19.0760 72.8777 restaurants (-1) = [] :=
  nearby_neg_radius_aux 19.0760 72.8777 (-1) restaurants (by norm_num)

/-- C6 as amended: for every origin and candidate sequence, calling `within`
with a negative `radiusKm` does not fail; it returns the empty result
sequence, since every distance is non-negative and so no candidate passes the
`distance <= radiusKm` filter. -/
theorem findNearbyRestaurants_neg_radius_empty (userLat userLon radius : ℝ)
    (rs : List Restaurant) (h : radius < 0) :
    findNearbyRestaurants userLat userLon rs radius = [] :=
  nearby_neg_radius_aux userLat userLon radius rs h

/-- Witness for the amended C6 at origin `(0, 0)`, radius `-1`. -/
theorem findNearbyRestaurants_neg_radius_empty_witness :
    (-1 : ℝ) < 0 ∧ findNearbyRestaurants 0 0 restaurants (-1) = [] :=
  ⟨by norm_num, findNearbyRestaurants_neg_radius_empty 0 0 (-1) restaurants (by norm_num)⟩

/-- C7 counterexample: a candidate lacking a rating placed first in the input
is NOT sorted after the rated candidate: the comparator
`b.rating - a.rating` yields `NaN`, which ECMAScript's `SortCompare` treats
as `+0` ("equal"), so the stable sort keeps the unrated candidate first. -/
theorem findNearbyRestaurants_unrated_first_cex :
    (findNearbyRestaurants 0 0
        [⟨"NoRating", 0, 0, none⟩, ⟨"Rated", 0, 0, some 4.5⟩] 5).map
      (fun x => x.rating) = [none, some 4.5] := by
  have hd : calculateDistance 0 0 0 0 = 0 := calculateDistance_self_aux 0 0
  have hin : withinRadius 5 (addRestaurantDistance 0 0 ⟨"NoRating", 0, 0, none⟩) = true := by
    simp [withinRadius, addRestaurantDistance, hd]
  have hin2 : withinRadius 5 (addRestaurantDistance 0 0 ⟨"Rated", 0, 0, some 4.5⟩) = true := by
    simp [withinRadius, addRestaurantDistance, hd]
  simp only [findNearbyRestaurants, List.map_cons, List.map_nil, List.filter_cons,
    List.filter_nil, hin, hin2, if_true]
  simp [sortLe, insertLe, ratingLe, addRestaurantDistance]

/-- C7 as amended: for every origin, candidate sequence and non-negative
`radiusKm`, `within` never fails when some candidates lack a rating: the
result is a permutation of the radius-filtered annotated candidates (nothing
crashes, nothing is dropped).  But an unrated candidate is not treated as
having the lowest possible rating: it compares equal (`NaN` → `+0`) to every
candidate and keeps its relative input position instead of sorting last. -/
theorem findNearbyRestaurants_unrated_total (userLat userLon radius : ℝ)
    (rs : List Restaurant) (h0 : 0 ≤ radius) (hun : ∃ r ∈ rs, r.rating = none) :
    (findNearbyRestaurants userLat userLon rs radius).Perm
      ((rs.map (addRestaurantDistance userLat userLon)).filter (withinRadius radius)) :=
  sortLe_perm ratingLe _

/-- Witness for the amended C7 at origin `(0, 0)`, radius `5`, one unrated
candidate. -/
theorem findNearbyRestaurants_unrated_total_witness :
    ((0 : ℝ) ≤ 5 ∧ ∃ r ∈ ([⟨"NoRating", 0, 0, none⟩] : List Restaurant),
        r.rating = none) ∧
      (findNearbyRestaurants 0 0 [⟨"NoRating", 0, 0, none⟩] 5).Perm
        ((([⟨"NoRating", 0, 0, none⟩] : List Restaurant).map
          (addRestaurantDistance 0 0)).filter (withinRadius 5)) :=
  ⟨⟨by norm_num, by simp⟩,
    findNearbyRestaurants_unrated_total 0 0 5 [⟨"NoRating", 0, 0, none⟩]
      (by norm_num) (by simp)⟩

/-- C10: When the radius argument is omitted, `findNearbyRestaurants`
defaults the radius to 5 km: for every origin and candidate sequence, calling
it without a radius returns the same result sequence as calling it with
radius 5.  The embedding keeps the source's default parameter `radius = 5`. -/
theorem findNearbyRestaurants_default_radius (userLat userLon : ℝ)
    (rs : List Restaurant) :
    findNearbyRestaurants userLat userLon rs = findNearbyRestaurants userLat userLon rs 5 :=
  rfl

end GeoRanker
